import Mathlib

/-!
# Elasticsearch_API: the subject CRUD facade of `main.go`

A shallow embedding of `main.go`: the record `ThongTinMonHoc`, the startup step `init`, the four
handlers `CreateSubject`, `GetSubject`, `UpdateSubject`, `DeleteSubject` and the route table of
`main`.

The collaborators of the program are explicit values:

* `Codec` stands for `encoding/json` at the record type (`Decode` of a byte stream, `Marshal` of a
  record); the handlers are written against an arbitrary codec, and `goJson` is the codec that
  follows `encoding/json` on parsed JSON values;
* `Client σ` stands for the Elasticsearch client `es`: one function from a request and the state
  of the store to an outcome and the next state; `esStore` is the document store behind it;
* `time.Now()` is the argument `now`.

Every handler runs on a `World σ`, the state of the store together with the list of the requests
sent to it so far, and returns the `ResponseWriter` it has written to.
-/

namespace ElasticsearchAPI

/-! ## Bytes and JSON values -/

/-- A parsed JSON value. `num` is a number literal that is an integer, `real` a number literal with
a fraction or an exponent (kept as its text). -/
inductive Json where
  | null
  | bool (b : Bool)
  | num (n : Int)
  | real (lit : String)
  | str (s : String)
  | arr (xs : List Json)
  | obj (kvs : List (String × Json))

/-- A piece of a byte stream: plain characters that are not the text of a JSON value, or the text
of one JSON value. -/
inductive Chunk where
  | text (s : String)
  | json (v : Json)

instance : Inhabited Json := ⟨.null⟩

instance : Inhabited Chunk := ⟨.text ""⟩

/-- A byte stream (`io.Reader`, `[]byte`): its pieces in order. -/
abbrev Bytes := List Chunk

/-- Instants of `time.Time`, counted from the zero value of the type (which is `0`). -/
abbrev Time := Nat

/-! ## The record (main.go 17-24) -/

/-- ThongTinMonHoc represents a simple subject entity. `SoTinChi` is a Go `int`. -/
structure ThongTinMonHoc where
  MaMH : String := ""
  TEnMonHoc : String := ""
  GVCN : String := ""
  SoTinChi : Int := 0
  CreatedAt : Time := 0
  deriving DecidableEq, Repr, Inhabited

/-- The codec `encoding/json` at the record type: `Decode` is
`json.NewDecoder(body).Decode(&v)` on a zero `v`, `Marshal` is `json.Marshal(v)`. -/
structure Codec where
  Decode : Bytes → Except String ThongTinMonHoc
  Marshal : ThongTinMonHoc → Except String Bytes

/-! ## The Elasticsearch client (esapi) -/

/-- The requests of `esapi` that the program builds, with the fields it sets. -/
inductive EsRequest where
  | IndicesDelete (Index : List String)
  | IndicesCreate (Index : String) (Body : Bytes)
  | Index (Index : String) (DocumentID : String) (Body : Bytes) (Refresh : String)
  | Get (Index : String) (DocumentID : String)
  | Update (Index : String) (DocumentID : String) (Body : Bytes) (Refresh : String)
  | Delete (Index : String) (DocumentID : String) (Refresh : String)

instance : Inhabited EsRequest := ⟨.Get "" ""⟩

/-- An `*esapi.Response`. -/
structure EsResponse where
  StatusCode : Nat
  Body : Bytes
  deriving Inhabited

/-- The method `IsError` of esapi: the status code is above 299. -/
def EsResponse.IsError (res : EsResponse) : Bool :=
  decide (res.StatusCode > 299)

/-- What a call `req.Do(ctx, es)` returns: `(nil, err)` when the transport fails, `(res, nil)` when
the store answers. -/
inductive EsResult where
  | transportError (err : String)
  | response (res : EsResponse)

instance : Inhabited EsResult := ⟨.transportError ""⟩

/-- The condition `err != nil || res.IsError()`. -/
def EsResult.failed : EsResult → Bool
  | .transportError _ => true
  | .response res => res.IsError

/-- The client `es` over a store with states `σ`. -/
structure Client (σ : Type) where
  Perform : EsRequest → σ → EsResult × σ

/-- The state a handler runs on: the store, and the requests sent to it so far (oldest first). -/
structure World (σ : Type) where
  store : σ
  calls : List EsRequest

/-- The call `req.Do(context.Background(), es)`: one request to the store, recorded. -/
def Do {σ : Type} (es : Client σ) (req : EsRequest) (w : World σ) : EsResult × World σ :=
  let out := es.Perform req w.store
  (out.1, { store := out.2, calls := w.calls ++ [req] })

/-! ## net/http -/

/-- The `http.ResponseWriter` of one request: the status written by `WriteHeader` (if any) and the
bytes written. -/
structure ResponseWriter where
  header : Option Nat := none
  body : Bytes := []
  deriving Inhabited

/-- The method `WriteHeader`: only the first call counts. -/
def ResponseWriter.WriteHeader (rw : ResponseWriter) (code : Nat) : ResponseWriter :=
  match rw.header with
  | some _ => rw
  | none => { rw with header := some code }

/-- The method `Write`: a write before any `WriteHeader` sends status 200 first. -/
def ResponseWriter.Write (rw : ResponseWriter) (b : Bytes) : ResponseWriter :=
  { header := some (rw.header.getD 200), body := rw.body ++ b }

/-- The status the client receives: 200 when the handler returns without writing a header. -/
def ResponseWriter.StatusCode (rw : ResponseWriter) : Nat :=
  rw.header.getD 200

/-- The function `http.Error`: the status, then the message and a newline. -/
def http.Error (rw : ResponseWriter) (error : String) (code : Nat) : ResponseWriter :=
  (rw.WriteHeader code).Write [Chunk.text (error ++ "\n")]

/-- The call `fmt.Fprintf(w, s)` with a format that has no verbs. -/
def fmt.Fprintf (rw : ResponseWriter) (s : String) : ResponseWriter :=
  rw.Write [Chunk.text s]

/-- The call `json.NewEncoder(w).Encode(v)`: the encoding of `v` and a newline, or nothing at all
when the encoding fails (the error is dropped by the caller). -/
def Encode (codec : Codec) (rw : ResponseWriter) (v : ThongTinMonHoc) : ResponseWriter :=
  match codec.Marshal v with
  | .error _ => rw
  | .ok data => rw.Write (data ++ [Chunk.text "\n"])

/-- An `*http.Request`: method, URL path, body, and the route variables `mux.Vars(r)`. -/
structure Request where
  Method : String
  Path : String
  Body : Bytes := []
  Vars : List (String × String) := []

/-- The expression `mux.Vars(r)[name]`: the empty string for a missing key. -/
def mux.Vars (r : Request) (name : String) : String :=
  (r.Vars.lookup name).getD ""

/-! ## The handlers (main.go 88-200) -/

/-- CreateSubject creates a new subject in Elasticsearch (main.go 89-123). -/
def CreateSubject {σ : Type} (codec : Codec) (es : Client σ) (now : Time)
    (r : Request) (w : World σ) : ResponseWriter × World σ :=
  let rw : ResponseWriter := {}
  match codec.Decode r.Body with
  | .error _ => (http.Error rw "Invalid input" 400, w)
  | .ok info =>
    let info := { info with CreatedAt := now }
    match codec.Marshal info with
    | .error _ => (http.Error rw "Error marshaling subject data" 500, w)
    | .ok data =>
      let req := EsRequest.Index "thongtinmonhoc" info.MaMH data "true"
      let out := Do es req w
      if out.1.failed then
        (http.Error rw "Error indexing document" 500, out.2)
      else
        (fmt.Fprintf (rw.WriteHeader 201) "Subject created successfully!", out.2)

/-- GetSubject fetches a subject from Elasticsearch by ID (main.go 126-144). -/
def GetSubject {σ : Type} (codec : Codec) (es : Client σ)
    (r : Request) (w : World σ) : ResponseWriter × World σ :=
  let rw : ResponseWriter := {}
  let id := mux.Vars r "ma_mh"
  let out := Do es (EsRequest.Get "thongtinmonhoc" id) w
  match out.1 with
  | .transportError _ => (http.Error rw "Subject not found" 404, out.2)
  | .response res =>
    if res.IsError then
      (http.Error rw "Subject not found" 404, out.2)
    else
      match codec.Decode res.Body with
      | .error _ => (http.Error rw "Error decoding response" 500, out.2)
      | .ok subject => (Encode codec rw subject, out.2)

/-- UpdateSubject updates a subject in Elasticsearch (main.go 147-179). -/
def UpdateSubject {σ : Type} (codec : Codec) (es : Client σ)
    (r : Request) (w : World σ) : ResponseWriter × World σ :=
  let rw : ResponseWriter := {}
  let id := mux.Vars r "ma_mh"
  match codec.Decode r.Body with
  | .error _ => (http.Error rw "Invalid input" 400, w)
  | .ok updatedSubject =>
    match codec.Marshal updatedSubject with
    | .error _ => (http.Error rw "Error marshaling subject data" 500, w)
    | .ok data =>
      let req := EsRequest.Update "thongtinmonhoc" id data "true"
      let out := Do es req w
      if out.1.failed then
        (http.Error rw "Error updating document" 500, out.2)
      else
        (fmt.Fprintf (rw.WriteHeader 200) "Subject updated successfully!", out.2)

/-- DeleteSubject deletes a subject from Elasticsearch (main.go 182-200). -/
def DeleteSubject {σ : Type} (es : Client σ)
    (r : Request) (w : World σ) : ResponseWriter × World σ :=
  let rw : ResponseWriter := {}
  let id := mux.Vars r "ma_mh"
  let req := EsRequest.Delete "thongtinmonhoc" id "true"
  let out := Do es req w
  if out.1.failed then
    (http.Error rw "Error deleting subject" 500, out.2)
  else
    (fmt.Fprintf (rw.WriteHeader 200) "Subject deleted successfully!", out.2)

/-! ## Startup (main.go 28-86) -/

/-- The argument of a logged line: an `error` value or a response. -/
inductive LogArg where
  | err (e : String)
  | res (r : EsResponse)

/-- A line given to `log.Fatalf` or `fmt.Printf`: the format and its argument. -/
structure LogLine where
  format : String
  arg : LogArg

/-- The body of the create-index request (main.go 55-76). -/
def indexMapping : Json :=
  .obj [("settings", .obj []),
        ("mappings", .obj [("properties", .obj [
          ("ma_mh", .obj [("type", .str "text")]),
          ("ten_mon_hoc", .obj [("type", .str "text")]),
          ("gvcn", .obj [("type", .str "text")]),
          ("so_tin_chi", .obj [("type", .str "integer")]),
          ("created_at", .obj [("type", .str "date")])])])]

/-- How `init` ends: `log.Fatalf` exits the process, a nil dereference faults it, or the function
returns. Each case carries the lines logged and the world reached. -/
inductive Startup (σ : Type) where
  | exited (out : List LogLine) (w : World σ)
  | faulted (out : List LogLine) (w : World σ)
  | completed (out : List LogLine) (w : World σ)

/-- The function `init` (main.go 28-86). `newClient` is what `elasticsearch.NewClient(cfg)`
returns. After a transport error of the create-index call `createRes` is nil, and the deferred
`createRes.Body.Close()` evaluates `createRes.Body` on the spot. -/
def init {σ : Type} (newClient : Except String (Client σ)) (w : World σ) : Startup σ :=
  match newClient with
  | .error err => .exited [⟨"Error creating the client: %s", .err err⟩] w
  | .ok es =>
    let indexName := "thongtinmonhoc"
    let out := Do es (EsRequest.IndicesDelete [indexName]) w
    match out.1 with
    | .transportError err => .exited [⟨"Error deleting index: %s", .err err⟩] out.2
    | .response _ =>
      let createOut := Do es (EsRequest.IndicesCreate indexName [Chunk.json indexMapping]) out.2
      match createOut.1 with
      | .transportError err => .faulted [⟨"Error creating index: %s", .err err⟩] createOut.2
      | .response createRes =>
        if createRes.IsError then
          .completed [⟨"Error creating index: %s", .res createRes⟩] createOut.2
        else
          .completed [] createOut.2

/-- Startup aborts: the process exits or faults before `main` runs. -/
def Startup.aborts {σ : Type} : Startup σ → Bool
  | .completed _ _ => false
  | _ => true

/-- The lines logged during startup. -/
def Startup.out {σ : Type} : Startup σ → List LogLine
  | .exited o _ => o
  | .faulted o _ => o
  | .completed o _ => o

/-! ## The route table (main.go 202-210) -/

/-- The handlers registered in `main`. -/
inductive Handler where
  | CreateSubject
  | GetSubject
  | UpdateSubject
  | DeleteSubject
  deriving DecidableEq, Repr

/-- A piece of a mux path template: literal characters, or a variable `{name}`, which matches one
or more characters other than `/`. -/
inductive Part where
  | lit (s : String)
  | var (name : String)

/-- A route: `r.HandleFunc(template, handler).Methods(method)`. -/
structure Route where
  template : List Part
  method : String
  handler : Handler

/-- The routes of `main`, in registration order. -/
def routes : List Route :=
  [ ⟨[.lit "/thongtinmonhoc"], "POST", .CreateSubject⟩,
    ⟨[.lit "/thongtinmonhoc/", .var "id"], "GET", .GetSubject⟩,
    ⟨[.lit "/thongtinmonhoc/", .var "id"], "PUT", .UpdateSubject⟩,
    ⟨[.lit "/thongtinmonhoc/", .var "id"], "DELETE", .DeleteSubject⟩ ]

/-- Match a path against a template, anchored at both ends, and collect the variables. A variable
takes the longest run of characters other than `/`, which is what the regular expression of mux
does for a variable that ends the template or is followed by `/`. -/
def matchPath : List Part → List Char → Option (List (String × String))
  | [], [] => some []
  | [], _ :: _ => none
  | .lit s :: ps, path =>
    if s.data.isPrefixOf path then matchPath ps (path.drop s.data.length) else none
  | .var name :: ps, path =>
    let seg := path.takeWhile (fun c => c != '/')
    if seg.isEmpty then none
    else (matchPath ps (path.drop seg.length)).map (fun vs => (name, String.mk seg) :: vs)

/-- The result of matching a request against the route table. -/
inductive RouteMatch where
  | matched (h : Handler) (vars : List (String × String))
  | methodMismatch
  | notFound

/-- The method `Match` of the mux router: the first route whose path and method both match; a path
that matches with another method only is a method mismatch. -/
def Router.Match (r : Request) : List Route → RouteMatch
  | [] => .notFound
  | rt :: rest =>
    match matchPath rt.template r.Path.data with
    | none => Router.Match r rest
    | some vars =>
      if rt.method == r.Method then .matched rt.handler vars
      else
        match Router.Match r rest with
        | .notFound => .methodMismatch
        | m => m

/-- Run a registered handler. -/
def Handler.serve {σ : Type} (h : Handler) (codec : Codec) (es : Client σ) (now : Time)
    (r : Request) (w : World σ) : ResponseWriter × World σ :=
  match h with
  | .CreateSubject => ElasticsearchAPI.CreateSubject codec es now r w
  | .GetSubject => ElasticsearchAPI.GetSubject codec es r w
  | .UpdateSubject => ElasticsearchAPI.UpdateSubject codec es r w
  | .DeleteSubject => ElasticsearchAPI.DeleteSubject es r w

/-- The method `ServeHTTP` of the mux router: the matched handler runs on the request with its
route variables set; no route gives 404, a method mismatch gives 405. -/
def Router.ServeHTTP {σ : Type} (codec : Codec) (es : Client σ) (now : Time)
    (r : Request) (w : World σ) : ResponseWriter × World σ :=
  match Router.Match r routes with
  | .matched h vars => h.serve codec es now { r with Vars := vars } w
  | .methodMismatch => (({} : ResponseWriter).WriteHeader 405, w)
  | .notFound => (http.Error {} "404 page not found" 404, w)

/-! ## encoding/json at the record type -/

/-- The JSON form of `time.Time`: `MarshalJSON` gives the RFC 3339 text of an instant (or fails,
for a year outside 0..9999), `UnmarshalJSON` reads the text of a JSON string. -/
structure TimeCodec where
  MarshalJSON : Time → Except String String
  UnmarshalJSON : String → Except String Time

/-- JSON white space. -/
def isSpace (c : Char) : Bool :=
  c == ' ' || c == Char.ofNat 9 || c == Char.ofNat 10 || c == Char.ofNat 13

/-- The first JSON value of a stream, as `Decoder.Decode` reads it: white space is skipped, the end
of the stream is `EOF`, any other character is a syntax error. What follows the value is not
looked at. -/
def firstValue : Bytes → Except String Json
  | [] => .error "EOF"
  | .json v :: _ => .ok v
  | .text s :: rest =>
    if s.data.all isSpace then firstValue rest else .error "invalid character"

/-- The fields of the record. -/
inductive Field where
  | MaMH
  | TEnMonHoc
  | GVCN
  | SoTinChi
  | CreatedAt
  deriving DecidableEq, Repr

/-- The `json:"..."` tag of a field. -/
def Field.tag : Field → String
  | .MaMH => "ma_mh"
  | .TEnMonHoc => "ten_mon_hoc"
  | .GVCN => "gvcn"
  | .SoTinChi => "so_tin_chi"
  | .CreatedAt => "created_at"

/-- The fields in declaration order. -/
def fields : List Field := [.MaMH, .TEnMonHoc, .GVCN, .SoTinChi, .CreatedAt]

/-- Case folding of one character, as far as the tags can tell: ASCII letters fold to lower case,
and the two characters outside ASCII that fold to an ASCII letter are U+017F (to `s`) and U+212A
(to `k`). -/
def foldRune (c : Char) : Char :=
  if c == Char.ofNat 0x17F then 's'
  else if c == Char.ofNat 0x212A then 'k'
  else c.toLower

/-- Case folding of a key. -/
def foldName (s : String) : List Char := s.data.map foldRune

/-- The field an object key is stored in: the field whose tag is the key, else the first field
whose tag equals the key up to case folding, else none (the key is skipped). -/
def fieldOf (key : String) : Option Field :=
  match fields.find? (fun f => f.tag == key) with
  | some f => some f
  | none => fields.find? (fun f => foldName f.tag == foldName key)

/-- Store one JSON value in one field. `null` leaves the field as it is; a value of the wrong kind,
or an integer outside the range of a 64-bit `int`, is an error. -/
def setField (tc : TimeCodec) (info : ThongTinMonHoc) :
    Field → Json → Except String ThongTinMonHoc
  | _, .null => .ok info
  | .MaMH, .str s => .ok { info with MaMH := s }
  | .TEnMonHoc, .str s => .ok { info with TEnMonHoc := s }
  | .GVCN, .str s => .ok { info with GVCN := s }
  | .SoTinChi, .num n =>
    if -(2 : Int) ^ 63 ≤ n ∧ n < (2 : Int) ^ 63 then .ok { info with SoTinChi := n }
    else .error "json: cannot unmarshal number into Go struct field of type int"
  | .CreatedAt, .str s =>
    match tc.UnmarshalJSON s with
    | .error e => .error e
    | .ok t => .ok { info with CreatedAt := t }
  | .CreatedAt, _ => .error "Time.UnmarshalJSON: input is not a JSON string"
  | _, _ => .error "json: cannot unmarshal value into Go struct field"

/-- Store the members of a JSON object, in order; a later member with the same key wins. -/
def decodeObject (tc : TimeCodec) : List (String × Json) → ThongTinMonHoc →
    Except String ThongTinMonHoc
  | [], info => .ok info
  | (k, v) :: rest, info =>
    match fieldOf k with
    | none => decodeObject tc rest info
    | some f =>
      match setField tc info f v with
      | .error e => .error e
      | .ok info1 => decodeObject tc rest info1

/-- The function `json.Unmarshal` into a zero record: `null` leaves it zero, an object is stored
member by member, anything else is an error. -/
def unmarshal (tc : TimeCodec) : Json → Except String ThongTinMonHoc
  | .null => .ok {}
  | .obj kvs => decodeObject tc kvs {}
  | _ => .error "json: cannot unmarshal value into Go value of type main.ThongTinMonHoc"

/-- The object `json.Marshal` writes for a record: the five tags in declaration order. -/
def encodeSubject (info : ThongTinMonHoc) (createdAt : String) : Json :=
  .obj [("ma_mh", .str info.MaMH), ("ten_mon_hoc", .str info.TEnMonHoc), ("gvcn", .str info.GVCN),
        ("so_tin_chi", .num info.SoTinChi), ("created_at", .str createdAt)]

/-- The codec of `encoding/json` at the record type, on parsed JSON values. -/
def goJson (tc : TimeCodec) : Codec where
  Decode body :=
    match firstValue body with
    | .error e => .error e
    | .ok v => unmarshal tc v
  Marshal info :=
    match tc.MarshalJSON info.CreatedAt with
    | .error e => .error e
    | .ok t => .ok [Chunk.json (encodeSubject info t)]

/-! ## The backing store

Elasticsearch as a map from index name and document identifier to the stored document. Version
counters, mappings, scripted updates and refresh are not modelled: every write is visible to the
next read. -/

/-- The documents of one index, by identifier. -/
abbrev Docs := List (String × Json)

/-- The state of the store: its indices, and a counter for generated identifiers. -/
structure EsStore where
  indices : List (String × Docs) := []
  generated : Nat := 0
  deriving Inhabited

/-- Replace or add the entry of a key. -/
def put {α : Type} (k : String) (v : α) : List (String × α) → List (String × α)
  | [] => [(k, v)]
  | (k1, v1) :: rest => if k1 == k then (k, v) :: rest else (k1, v1) :: put k v rest

/-- Remove the entry of a key. -/
def remove {α : Type} (k : String) (m : List (String × α)) : List (String × α) :=
  m.filter (fun e => !(e.1 == k))

/-- An answer of the store with no transport error. -/
def answer (code : Nat) (body : Json) (st : EsStore) : EsResult × EsStore :=
  (.response ⟨code, [Chunk.json body]⟩, st)

/-- The answer to a request that names a missing index. -/
def indexNotFound (index : String) (st : EsStore) : EsResult × EsStore :=
  answer 404 (.obj [("error", .obj [("type", .str "index_not_found_exception"),
    ("index", .str index)]), ("status", .num 404)]) st

/-- The answer to a request whose body the store rejects. -/
def badRequest (st : EsStore) : EsResult × EsStore :=
  answer 400 (.obj [("error", .obj [("type", .str "parse_exception")]), ("status", .num 400)]) st

/-- The answer to a document write. -/
def written (code : Nat) (index id result : String) (st : EsStore) : EsResult × EsStore :=
  answer code (.obj [("_index", .str index), ("_id", .str id), ("result", .str result)]) st

/-- The store behind the client. A get answers with the envelope of the document: the stored
document is the member `_source` of the response body. -/
def esStore : Client EsStore where
  Perform req st :=
    match req with
    | .IndicesDelete names =>
      if names.all (fun n => (st.indices.lookup n).isSome) then
        answer 200 (.obj [("acknowledged", .bool true)])
          { st with indices := st.indices.filter (fun e => !(names.contains e.1)) }
      else indexNotFound (names.headD "") st
    | .IndicesCreate index body =>
      match firstValue body, st.indices.lookup index with
      | .ok (.obj _), none =>
        answer 200 (.obj [("acknowledged", .bool true), ("index", .str index)])
          { st with indices := put index [] st.indices }
      | _, _ => badRequest st
    | .Index index id body _ =>
      match firstValue body with
      | .ok (.obj src) =>
        let docs := (st.indices.lookup index).getD []
        if id == "" then
          let newId := "generated-" ++ toString st.generated
          written 201 index newId "created"
            { indices := put index (put newId (.obj src) docs) st.indices,
              generated := st.generated + 1 }
        else
          let code := if (docs.lookup id).isSome then 200 else 201
          let result := if (docs.lookup id).isSome then "updated" else "created"
          written code index id result
            { st with indices := put index (put id (.obj src) docs) st.indices }
      | _ => badRequest st
    | .Get index id =>
      match st.indices.lookup index with
      | none => indexNotFound index st
      | some docs =>
        match docs.lookup id with
        | none => answer 404 (.obj [("_index", .str index), ("_id", .str id),
            ("found", .bool false)]) st
        | some src => answer 200 (.obj [("_index", .str index), ("_id", .str id),
            ("found", .bool true), ("_source", src)]) st
    | .Update index id body _ =>
      match firstValue body with
      | .ok (.obj [("doc", .obj changes)]) =>
        match st.indices.lookup index with
        | none => indexNotFound index st
        | some docs =>
          match docs.lookup id with
          | some (.obj old) =>
            let merged := Json.obj (changes.foldl (fun acc kv => put kv.1 kv.2 acc) old)
            written 200 index id "updated"
              { st with indices := put index (put id merged docs) st.indices }
          | _ => answer 404 (.obj [("error", .obj [("type", .str "document_missing_exception")]),
              ("status", .num 404)]) st
      | _ => badRequest st
    | .Delete index id _ =>
      match st.indices.lookup index with
      | none => indexNotFound index st
      | some docs =>
        if (docs.lookup id).isSome then
          written 200 index id "deleted"
            { st with indices := put index (remove id docs) st.indices }
        else
          written 404 index id "not_found" st

/-! ## A worked scenario -/

/-- A time codec that knows two instants: the zero time, and the instant one nanosecond after
it. -/
def sampleTimes : TimeCodec where
  MarshalJSON t :=
    if t = 0 then .ok "0001-01-01T00:00:00Z"
    else if t = 1 then .ok "0001-01-01T00:00:00.000000001Z"
    else .error "Time.MarshalJSON: instant outside the sample"
  UnmarshalJSON s :=
    if s = "0001-01-01T00:00:00Z" then .ok 0
    else if s = "0001-01-01T00:00:00.000000001Z" then .ok 1
    else .error "parsing time: text outside the sample"

/-- The JSON a client sends for a record: the four client fields, without `created_at`. -/
def requestBody (R : ThongTinMonHoc) : Json :=
  .obj [("ma_mh", .str R.MaMH), ("ten_mon_hoc", .str R.TEnMonHoc), ("gvcn", .str R.GVCN),
        ("so_tin_chi", .num R.SoTinChi)]

/-- The record of the scenario `POST {"ma_mh":"CS101", ...}`. -/
def cs101 : ThongTinMonHoc :=
  { MaMH := "CS101", TEnMonHoc := "Algorithms", GVCN := "Dr. A", SoTinChi := 4 }

/-- The store as a successful startup leaves it (the index exists and is empty), with an empty
log of requests. -/
def provisioned : World EsStore :=
  { store := { indices := [("thongtinmonhoc", [])] }, calls := [] }

/-- A client whose store cannot be reached: every call is a transport error. -/
def unreachable : Client Unit where
  Perform _ st := (.transportError "dial tcp 127.0.0.1:9200: connect: connection refused", st)

/-! ## Lemmas on the response writer and the client -/

theorem statusCode_error (msg : String) (code : Nat) :
    (http.Error {} msg code).StatusCode = code := rfl

theorem body_error (msg : String) (code : Nat) :
    (http.Error {} msg code).body = [Chunk.text (msg ++ "\n")] := rfl

theorem statusCode_fprintf (code : Nat) (s : String) :
    (fmt.Fprintf (({} : ResponseWriter).WriteHeader code) s).StatusCode = code := rfl

theorem body_fprintf (code : Nat) (s : String) :
    (fmt.Fprintf (({} : ResponseWriter).WriteHeader code) s).body = [Chunk.text s] := rfl

theorem failed_iff (o : EsResult) :
    o.failed = true ↔
      (∃ err, o = .transportError err) ∨
        (∃ res, o = .response res ∧ 299 < res.StatusCode) := by
  cases o with
  | transportError err => simp [EsResult.failed]
  | response res => simp [EsResult.failed, EsResponse.IsError]

theorem failed_eq_false_iff (o : EsResult) :
    o.failed = false ↔ ∃ res, o = .response res ∧ res.StatusCode ≤ 299 := by
  cases o with
  | transportError err => simp [EsResult.failed]
  | response res => simp [EsResult.failed, EsResponse.IsError]

/-- C1: the status of CreateSubject is 400 when the body does not decode; otherwise 500 when the
serialization fails or the index call returns a transport error or an error response; otherwise
201 with the body "Subject created successfully!"; and it is never anything else. -/
theorem C1_CreateSubject_status {σ : Type} (codec : Codec) (es : Client σ) (now : Time)
    (r : Request) (w : World σ) :
    (∀ e, codec.Decode r.Body = .error e →
      (CreateSubject codec es now r w).1.StatusCode = 400) ∧
    (∀ info, codec.Decode r.Body = .ok info →
      (∀ e, codec.Marshal { info with CreatedAt := now } = .error e →
        (CreateSubject codec es now r w).1.StatusCode = 500) ∧
      (∀ data, codec.Marshal { info with CreatedAt := now } = .ok data →
        (((∃ err, (es.Perform (.Index "thongtinmonhoc" info.MaMH data "true") w.store).1
              = .transportError err) ∨
          (∃ res, (es.Perform (.Index "thongtinmonhoc" info.MaMH data "true") w.store).1
              = .response res ∧ 299 < res.StatusCode)) →
          (CreateSubject codec es now r w).1.StatusCode = 500) ∧
        ((∃ res, (es.Perform (.Index "thongtinmonhoc" info.MaMH data "true") w.store).1
              = .response res ∧ res.StatusCode ≤ 299) →
          (CreateSubject codec es now r w).1.StatusCode = 201 ∧
          (CreateSubject codec es now r w).1.body
            = [Chunk.text "Subject created successfully!"]))) ∧
    ((CreateSubject codec es now r w).1.StatusCode = 400 ∨
      (CreateSubject codec es now r w).1.StatusCode = 500 ∨
      (CreateSubject codec es now r w).1.StatusCode = 201) := by
  refine ⟨?_, ?_, ?_⟩
  · intro e he
    simp [CreateSubject, he, statusCode_error]
  · intro info hinfo
    refine ⟨?_, ?_⟩
    · intro e he
      simp [CreateSubject, hinfo, he, statusCode_error]
    · intro data hdata
      refine ⟨?_, ?_⟩
      · intro h
        have hf := (failed_iff _).2 h
        simp [CreateSubject, hinfo, hdata, Do, hf, statusCode_error]
      · intro h
        have hf := (failed_eq_false_iff _).2 h
        simp [CreateSubject, hinfo, hdata, Do, hf, statusCode_fprintf, body_fprintf]
  · unfold CreateSubject
    cases codec.Decode r.Body with
    | error e => simp [statusCode_error]
    | ok info =>
      simp only
      cases codec.Marshal { info with CreatedAt := now } with
      | error e => simp [statusCode_error]
      | ok data =>
        simp only
        split <;> simp [statusCode_error, statusCode_fprintf]

/-- C2: for a body that decodes to a record, CreateSubject sends exactly one request to the store
when the record with `created_at` set to the current time serializes, and none when it does not.
That request is an index request on "thongtinmonhoc" with the record's `ma_mh` as document
identifier, refresh "true", and as body the serialization of the record whose `created_at` is the
current time and whose other four fields are those decoded. -/
theorem C2_CreateSubject_index_request {σ : Type} (codec : Codec) (es : Client σ) (now : Time)
    (r : Request) (w : World σ) (info : ThongTinMonHoc)
    (hdecode : codec.Decode r.Body = .ok info) :
    (∀ data,
      codec.Marshal { MaMH := info.MaMH, TEnMonHoc := info.TEnMonHoc, GVCN := info.GVCN,
                      SoTinChi := info.SoTinChi, CreatedAt := now } = .ok data →
      (CreateSubject codec es now r w).2.calls
        = w.calls ++ [EsRequest.Index "thongtinmonhoc" info.MaMH data "true"]) ∧
    (∀ e,
      codec.Marshal { MaMH := info.MaMH, TEnMonHoc := info.TEnMonHoc, GVCN := info.GVCN,
                      SoTinChi := info.SoTinChi, CreatedAt := now } = .error e →
      (CreateSubject codec es now r w).2.calls = w.calls) := by
  refine ⟨?_, ?_⟩
  · intro data hdata
    unfold CreateSubject
    simp only [hdecode, hdata]
    split <;> simp [Do]
  · intro e he
    unfold CreateSubject
    simp only [hdecode, he]

/-- C3: when the body does not decode, CreateSubject and UpdateSubject answer 400 and leave the
world as it was: the store is unchanged and no request has been sent to it. -/
theorem C3_malformed_body_no_store_call {σ : Type} (codec : Codec) (es : Client σ) (now : Time)
    (r : Request) (w : World σ) (e : String) (hdecode : codec.Decode r.Body = .error e) :
    ((CreateSubject codec es now r w).1.StatusCode = 400 ∧
      (CreateSubject codec es now r w).2 = w) ∧
    ((UpdateSubject codec es r w).1.StatusCode = 400 ∧
      (UpdateSubject codec es r w).2 = w) := by
  simp [CreateSubject, UpdateSubject, hdecode, statusCode_error]

/-- C5: the status of GetSubject is 404 when the get call returns a transport error or an error
response, with the same body "Subject not found" in both cases; otherwise 500 when the body of the
store's response does not decode; otherwise 200, and the body written is the JSON encoding of the
decoded record followed by a newline. -/
theorem C5_GetSubject_status {σ : Type} (codec : Codec) (es : Client σ)
    (r : Request) (w : World σ) :
    (((∃ err, (es.Perform (.Get "thongtinmonhoc" (mux.Vars r "ma_mh")) w.store).1
          = .transportError err) ∨
      (∃ res, (es.Perform (.Get "thongtinmonhoc" (mux.Vars r "ma_mh")) w.store).1
          = .response res ∧ 299 < res.StatusCode)) →
      (GetSubject codec es r w).1.StatusCode = 404 ∧
      (GetSubject codec es r w).1.body = [Chunk.text "Subject not found\n"]) ∧
    (∀ res, (es.Perform (.Get "thongtinmonhoc" (mux.Vars r "ma_mh")) w.store).1
          = .response res → res.StatusCode ≤ 299 →
      (∀ e, codec.Decode res.Body = .error e →
        (GetSubject codec es r w).1.StatusCode = 500) ∧
      (∀ subject, codec.Decode res.Body = .ok subject →
        (GetSubject codec es r w).1.StatusCode = 200 ∧
        (∀ data, codec.Marshal subject = .ok data →
          (GetSubject codec es r w).1.body = data ++ [Chunk.text "\n"]))) := by
  refine ⟨?_, ?_⟩
  · rintro (⟨err, h⟩ | ⟨res, h, hres⟩)
    · simp only [GetSubject, Do, h]
      exact ⟨rfl, rfl⟩
    · have : res.IsError = true := by simp [EsResponse.IsError, hres]
      simp only [GetSubject, Do, h, this, if_true]
      exact ⟨rfl, rfl⟩
  · intro res h hres
    have hok : res.IsError = false := by simp [EsResponse.IsError, hres]
    refine ⟨?_, ?_⟩
    · intro e he
      simp [GetSubject, Do, h, hok, he, statusCode_error]
    · intro subject hs
      refine ⟨?_, ?_⟩
      · simp only [GetSubject, Do, h, hok, hs, Encode]
        cases codec.Marshal subject <;> rfl
      · intro data hdata
        simp [GetSubject, Do, h, hok, hs, Encode, hdata, ResponseWriter.Write]

/-- C7: the status of UpdateSubject is 400 when the body does not decode; otherwise 500 when the
serialization fails or the update call returns a transport error or an error response; otherwise
200 with the body "Subject updated successfully!". -/
theorem C7_UpdateSubject_status {σ : Type} (codec : Codec) (es : Client σ)
    (r : Request) (w : World σ) :
    (∀ e, codec.Decode r.Body = .error e →
      (UpdateSubject codec es r w).1.StatusCode = 400) ∧
    (∀ info, codec.Decode r.Body = .ok info →
      (∀ e, codec.Marshal info = .error e →
        (UpdateSubject codec es r w).1.StatusCode = 500) ∧
      (∀ data, codec.Marshal info = .ok data →
        (((∃ err, (es.Perform (.Update "thongtinmonhoc" (mux.Vars r "ma_mh") data "true")
              w.store).1 = .transportError err) ∨
          (∃ res, (es.Perform (.Update "thongtinmonhoc" (mux.Vars r "ma_mh") data "true")
              w.store).1 = .response res ∧ 299 < res.StatusCode)) →
          (UpdateSubject codec es r w).1.StatusCode = 500) ∧
        ((∃ res, (es.Perform (.Update "thongtinmonhoc" (mux.Vars r "ma_mh") data "true")
              w.store).1 = .response res ∧ res.StatusCode ≤ 299) →
          (UpdateSubject codec es r w).1.StatusCode = 200 ∧
          (UpdateSubject codec es r w).1.body
            = [Chunk.text "Subject updated successfully!"]))) := by
  refine ⟨?_, ?_⟩
  · intro e he
    simp [UpdateSubject, he, statusCode_error]
  · intro info hinfo
    refine ⟨?_, ?_⟩
    · intro e he
      simp [UpdateSubject, hinfo, he, statusCode_error]
    · intro data hdata
      refine ⟨?_, ?_⟩
      · intro h
        have hf := (failed_iff _).2 h
        simp [UpdateSubject, hinfo, hdata, Do, hf, statusCode_error]
      · intro h
        have hf := (failed_eq_false_iff _).2 h
        simp [UpdateSubject, hinfo, hdata, Do, hf, statusCode_fprintf, body_fprintf]

/-- C9: DeleteSubject sends exactly one request to the store, a delete on "thongtinmonhoc" with
refresh "true"; the status is 500 when that call returns a transport error or an error response
and otherwise 200 with the body "Subject deleted successfully!"; it is never 400 or 404. -/
theorem C9_DeleteSubject {σ : Type} (es : Client σ) (r : Request) (w : World σ) :
    (DeleteSubject es r w).2.calls
      = w.calls ++ [EsRequest.Delete "thongtinmonhoc" (mux.Vars r "ma_mh") "true"] ∧
    (((∃ err, (es.Perform (.Delete "thongtinmonhoc" (mux.Vars r "ma_mh") "true") w.store).1
          = .transportError err) ∨
      (∃ res, (es.Perform (.Delete "thongtinmonhoc" (mux.Vars r "ma_mh") "true") w.store).1
          = .response res ∧ 299 < res.StatusCode)) →
      (DeleteSubject es r w).1.StatusCode = 500) ∧
    ((∃ res, (es.Perform (.Delete "thongtinmonhoc" (mux.Vars r "ma_mh") "true") w.store).1
          = .response res ∧ res.StatusCode ≤ 299) →
      (DeleteSubject es r w).1.StatusCode = 200 ∧
      (DeleteSubject es r w).1.body = [Chunk.text "Subject deleted successfully!"]) ∧
    (DeleteSubject es r w).1.StatusCode ≠ 400 ∧
    (DeleteSubject es r w).1.StatusCode ≠ 404 := by
  refine ⟨?_, ?_, ?_, ?_, ?_⟩
  · unfold DeleteSubject
    simp only
    split <;> simp [Do]
  · intro h
    have hf := (failed_iff _).2 h
    simp [DeleteSubject, Do, hf, statusCode_error]
  · intro h
    have hf := (failed_eq_false_iff _).2 h
    simp [DeleteSubject, Do, hf, statusCode_fprintf, body_fprintf]
  · unfold DeleteSubject
    simp only
    split <;> simp [statusCode_error, statusCode_fprintf]
  · unfold DeleteSubject
    simp only
    split <;> simp [statusCode_error, statusCode_fprintf]

theorem setField_createdAt (tc : TimeCodec) (info info1 : ThongTinMonHoc) (f : Field) (v : Json)
    (hf : f ≠ .CreatedAt) (h : setField tc info f v = .ok info1) :
    info1.CreatedAt = info.CreatedAt := by
  cases f <;> cases v <;> simp [setField] at h hf ⊢ <;> try (subst h; rfl)
  all_goals
    split at h <;> simp at h
    subst h; rfl

theorem decodeObject_createdAt (tc : TimeCodec) (kvs : List (String × Json)) :
    ∀ (info R : ThongTinMonHoc), (∀ kv ∈ kvs, fieldOf kv.1 ≠ some .CreatedAt) →
      decodeObject tc kvs info = .ok R → R.CreatedAt = info.CreatedAt := by
  induction kvs with
  | nil =>
    intro info R _ h
    simp [decodeObject] at h
    subst h; rfl
  | cons kv rest ih =>
    intro info R hk h
    obtain ⟨k, v⟩ := kv
    have hk0 := hk (k, v) (List.mem_cons_self _ _)
    have hrest : ∀ kv ∈ rest, fieldOf kv.1 ≠ some .CreatedAt :=
      fun kv hkv => hk kv (List.mem_cons_of_mem _ hkv)
    simp only [decodeObject] at h
    cases hf : fieldOf k with
    | none =>
      simp only [hf] at h
      exact ih info R hrest h
    | some f =>
      simp only [hf] at h
      cases hs : setField tc info f v with
      | error e => simp [hs] at h
      | ok info1 =>
        simp only [hs] at h
        have hne : f ≠ .CreatedAt := by
          intro hc; subst hc; exact hk0 hf
        rw [ih info1 R hrest h, setField_createdAt tc info info1 f v hne hs]

/-- C8: for a body that decodes to a record, the one request UpdateSubject sends carries exactly
the serialization of that record, whatever the store holds: nothing is stamped and nothing is
merged. With the codec of encoding/json, a body whose JSON object has no `created_at` member is
the record with the zero timestamp. -/
theorem C8_UpdateSubject_body_verbatim {σ : Type} (codec : Codec) (es : Client σ)
    (r : Request) (w : World σ) (R : ThongTinMonHoc)
    (hdecode : codec.Decode r.Body = .ok R) :
    (∀ data, codec.Marshal R = .ok data →
      (UpdateSubject codec es r w).2.calls
        = w.calls ++ [EsRequest.Update "thongtinmonhoc" (mux.Vars r "ma_mh") data "true"]) ∧
    (∀ e, codec.Marshal R = .error e → (UpdateSubject codec es r w).2.calls = w.calls) ∧
    (∀ tc kvs rest, codec = goJson tc → r.Body = Chunk.json (.obj kvs) :: rest →
      (∀ kv ∈ kvs, fieldOf kv.1 ≠ some .CreatedAt) → R.CreatedAt = 0) := by
  refine ⟨?_, ?_, ?_⟩
  · intro data hdata
    unfold UpdateSubject
    simp only [hdecode, hdata]
    split <;> simp [Do]
  · intro e he
    unfold UpdateSubject
    simp only [hdecode, he]
  · intro tc kvs rest hc hb hk
    subst hc
    simp only [goJson, hb, firstValue, unmarshal] at hdecode
    exact decodeObject_createdAt tc kvs {} R hk hdecode

/-- C10 as stated fails: with a client that was constructed but whose store cannot be reached,
the delete-index call returns a transport error and startup aborts. -/
theorem C10_counterexample_delete_error_aborts :
    ¬ ((init (Except.ok unreachable) ⟨(), []⟩).aborts = true ↔
        ∃ e, (Except.ok unreachable : Except String (Client Unit)) = .error e) := by
  intro h
  obtain ⟨e, he⟩ := h.1 rfl
  cases he

/-- C10, amended: startup exits when the client cannot be constructed and when the delete-index
call returns a transport error. When the delete-index call yields a response (of any status) and
the create-index call yields a response, startup completes; it logs the create-index response when
that is an error response, and logs nothing otherwise. -/
theorem C10_init_outcomes {σ : Type} (newClient : Except String (Client σ)) (w : World σ) :
    (∀ e, newClient = .error e →
      init newClient w = .exited [⟨"Error creating the client: %s", .err e⟩] w) ∧
    (∀ es, newClient = .ok es →
      (∀ err, (es.Perform (.IndicesDelete ["thongtinmonhoc"]) w.store).1 = .transportError err →
        ∃ w1, init newClient w = .exited [⟨"Error deleting index: %s", .err err⟩] w1) ∧
      (∀ res createRes,
        (es.Perform (.IndicesDelete ["thongtinmonhoc"]) w.store).1 = .response res →
        (es.Perform (.IndicesCreate "thongtinmonhoc" [Chunk.json indexMapping])
          (es.Perform (.IndicesDelete ["thongtinmonhoc"]) w.store).2).1 = .response createRes →
        (init newClient w).aborts = false ∧
        (init newClient w).out
          = if 299 < createRes.StatusCode then [⟨"Error creating index: %s", .res createRes⟩]
            else [])) := by
  refine ⟨?_, ?_⟩
  · intro e he
    subst he
    rfl
  · intro es hes
    subst hes
    refine ⟨?_, ?_⟩
    · intro err h
      simp [init, Do, h]
    · intro res createRes h hc
      simp only [init, Do, h, hc, EsResponse.IsError]
      by_cases hs : 299 < createRes.StatusCode <;> simp [hs, Startup.aborts, Startup.out]

theorem matchPath_collection (p : List Char) (vars : List (String × String))
    (h : matchPath [.lit "/thongtinmonhoc"] p = some vars) :
    vars = [] ∧ p = "/thongtinmonhoc".data := by
  simp only [matchPath] at h
  split at h
  · rename_i hp
    obtain ⟨t, ht⟩ := List.isPrefixOf_iff_prefix.1 hp
    subst ht
    rw [List.drop_left] at h
    cases t with
    | nil => simp [matchPath] at h; exact ⟨h, by simp⟩
    | cons c t => simp [matchPath] at h
  · cases h

theorem matchPath_item (p : List Char) (vars : List (String × String))
    (h : matchPath [.lit "/thongtinmonhoc/", .var "id"] p = some vars) :
    ∃ seg : List Char, seg ≠ [] ∧ '/' ∉ seg ∧ p = "/thongtinmonhoc/".data ++ seg ∧
      vars = [("id", String.mk seg)] := by
  simp only [matchPath] at h
  split at h
  · rename_i hp
    obtain ⟨t, ht⟩ := List.isPrefixOf_iff_prefix.1 hp
    subst ht
    rw [List.drop_left] at h
    split at h
    · cases h
    · rename_i hne
      cases hd : List.drop (List.takeWhile (fun c => c != '/') t).length t with
      | nil =>
        simp only [hd, matchPath, Option.map_some', Option.some.injEq] at h
        have htake : List.takeWhile (fun c => c != '/') t = t := by
          have := List.takeWhile_append_dropWhile (fun c => c != '/') t
          have hlen := List.drop_eq_nil_iff.1 hd
          have hpre : List.takeWhile (fun c => c != '/') t <+: t := ⟨_, this⟩
          exact List.IsPrefix.eq_of_length_le hpre hlen
        rw [htake] at h hne
        refine ⟨t, ?_, ?_, rfl, h.symm⟩
        · intro ht; subst ht; simp at hne
        · intro hmem
          have hmem1 : '/' ∈ List.takeWhile (fun c => c != '/') t := by rw [htake]; exact hmem
          have := List.mem_takeWhile_imp hmem1
          simp at this
      | cons c u =>
        simp [hd, matchPath] at h
  · cases h

theorem match_routes (r : Request) (h : Handler) (vars : List (String × String))
    (hm : Router.Match r routes = .matched h vars) :
    (h = .CreateSubject ∧ vars = []) ∨
    (h ≠ .CreateSubject ∧ ∃ seg : List Char, seg ≠ [] ∧ '/' ∉ seg ∧
      r.Path.data = "/thongtinmonhoc/".data ++ seg ∧ vars = [("id", String.mk seg)]) := by
  have key : ∀ (rts : List Route),
      (∀ rt ∈ rts, (rt.handler = .CreateSubject ∧ rt.template = [.lit "/thongtinmonhoc"]) ∨
        (rt.handler ≠ .CreateSubject ∧ rt.template = [.lit "/thongtinmonhoc/", .var "id"])) →
      Router.Match r rts = .matched h vars →
      (h = .CreateSubject ∧ vars = []) ∨
      (h ≠ .CreateSubject ∧ ∃ seg : List Char, seg ≠ [] ∧ '/' ∉ seg ∧
        r.Path.data = "/thongtinmonhoc/".data ++ seg ∧ vars = [("id", String.mk seg)]) := by
    intro rts
    induction rts with
    | nil => intro _ h0; simp [Router.Match] at h0
    | cons rt rest ih =>
      intro hall h0
      have ih1 := ih (fun x hx => hall x (List.mem_cons_of_mem _ hx))
      simp only [Router.Match] at h0
      cases hp : matchPath rt.template r.Path.data with
      | none =>
        simp only [hp] at h0
        exact ih1 h0
      | some vs =>
        simp only [hp] at h0
        split at h0
        · simp only [RouteMatch.matched.injEq] at h0
          obtain ⟨h1, h2⟩ := h0
          subst h1 h2
          rcases hall rt (List.mem_cons_self _ _) with ⟨hh, ht⟩ | ⟨hh, ht⟩
          · rw [ht] at hp
            exact Or.inl ⟨hh, (matchPath_collection _ _ hp).1⟩
          · rw [ht] at hp
            exact Or.inr ⟨hh, matchPath_item _ _ hp⟩
        · cases hr : Router.Match r rest with
          | notFound => simp [hr] at h0
          | methodMismatch => simp [hr] at h0
          | matched h2 v2 =>
            simp only [hr, RouteMatch.matched.injEq] at h0
            obtain ⟨h1, h2⟩ := h0
            subst h1 h2
            exact ih1 hr
  apply key routes _ hm
  intro rt hrt
  simp only [routes, List.mem_cons, List.mem_singleton, List.not_mem_nil, or_false] at hrt
  rcases hrt with rfl | rfl | rfl | rfl <;> simp

theorem fieldOf_ma_mh : fieldOf "ma_mh" = some .MaMH := by decide
theorem fieldOf_ten_mon_hoc : fieldOf "ten_mon_hoc" = some .TEnMonHoc := by decide
theorem fieldOf_gvcn : fieldOf "gvcn" = some .GVCN := by decide
theorem fieldOf_so_tin_chi : fieldOf "so_tin_chi" = some .SoTinChi := by decide
theorem fieldOf_index : fieldOf "_index" = none := by decide
theorem fieldOf_id : fieldOf "_id" = none := by decide
theorem fieldOf_found : fieldOf "found" = none := by decide
theorem fieldOf_source : fieldOf "_source" = none := by decide

theorem decode_requestBody (tc : TimeCodec) (R : ThongTinMonHoc) (rest : Bytes)
    (hcredits : -(2 : Int) ^ 63 ≤ R.SoTinChi ∧ R.SoTinChi < (2 : Int) ^ 63) :
    (goJson tc).Decode (Chunk.json (requestBody R) :: rest) = .ok { R with CreatedAt := 0 } := by
  norm_num at hcredits
  simp [goJson, firstValue, requestBody, unmarshal, decodeObject, fieldOf_ma_mh,
    fieldOf_ten_mon_hoc, fieldOf_gvcn, fieldOf_so_tin_chi, setField, hcredits]

theorem decode_envelope (tc : TimeCodec) (index id : String) (src : Json) (rest : Bytes) :
    (goJson tc).Decode (Chunk.json (.obj [("_index", .str index), ("_id", .str id),
      ("found", .bool true), ("_source", src)]) :: rest) = .ok {} := by
  simp [goJson, firstValue, unmarshal, decodeObject, fieldOf_index, fieldOf_id, fieldOf_found,
    fieldOf_source]

theorem create_provisioned (tc : TimeCodec) (now : Time) (stamp : String) (R : ThongTinMonHoc)
    (r : Request) (hbody : r.Body = [Chunk.json (requestBody R)])
    (hnow : tc.MarshalJSON now = .ok stamp) (hid : R.MaMH ≠ "")
    (hcredits : -(2 : Int) ^ 63 ≤ R.SoTinChi ∧ R.SoTinChi < (2 : Int) ^ 63) :
    CreateSubject (goJson tc) esStore now r provisioned =
      (⟨some 201, [Chunk.text "Subject created successfully!"]⟩,
       ⟨{ indices := [("thongtinmonhoc",
            [(R.MaMH, encodeSubject { R with CreatedAt := now } stamp)])] },
        [EsRequest.Index "thongtinmonhoc" R.MaMH
          [Chunk.json (encodeSubject { R with CreatedAt := now } stamp)] "true"]⟩) := by
  have hd := decode_requestBody tc R [] hcredits
  unfold CreateSubject
  simp only [hbody, hd]
  have hm : (goJson tc).Marshal { R with CreatedAt := now }
      = .ok [Chunk.json (encodeSubject { R with CreatedAt := now } stamp)] := by
    simp [goJson, hnow]
  simp only [hm]
  simp [Do, esStore, provisioned, firstValue, encodeSubject, hid, put, written, answer,
    EsResult.failed, EsResponse.IsError, fmt.Fprintf, ResponseWriter.WriteHeader,
    ResponseWriter.Write]

theorem get_after_create (tc : TimeCodec) (zero : String) (id : String) (doc : Json)
    (r : Request) (calls : List EsRequest) (hvar : mux.Vars r "ma_mh" = id)
    (hzero : tc.MarshalJSON 0 = .ok zero) :
    (GetSubject (goJson tc) esStore r
        ⟨{ indices := [("thongtinmonhoc", [(id, doc)])] }, calls⟩).1
      = ⟨some 200, [Chunk.json (encodeSubject {} zero), Chunk.text "\n"]⟩ := by
  have hd := decode_envelope tc "thongtinmonhoc" id doc []
  have hm : (goJson tc).Marshal {} = .ok [Chunk.json (encodeSubject {} zero)] := by
    simp [goJson, hzero]
  simp [GetSubject, Do, esStore, hvar, answer, EsResponse.IsError, hd, Encode, hm,
    ResponseWriter.Write]

theorem match_get_cs101 (body : Bytes) (vars : List (String × String)) :
    Router.Match ⟨"GET", "/thongtinmonhoc/CS101", body, vars⟩ routes
      = .matched .GetSubject [("id", "CS101")] := by
  rfl

theorem match_post (body : Bytes) (vars : List (String × String)) :
    Router.Match ⟨"POST", "/thongtinmonhoc", body, vars⟩ routes
      = .matched .CreateSubject [] := by
  rfl

/-- C4 fails on the code: for every request the route table matches to GetSubject, UpdateSubject
or DeleteSubject, the route binds the non-empty id segment of the path to the variable `id`, the
handler reads the variable `ma_mh`, which is unset, and the document identifier it passes to the
store is the empty string. -/
theorem C4_document_id_is_empty {σ : Type} (codec : Codec) (es : Client σ) (now : Time)
    (r : Request) (w : World σ) (h : Handler) (vars : List (String × String))
    (hm : Router.Match r routes = .matched h vars) (hh : h ≠ .CreateSubject) :
    (∃ seg : List Char, seg ≠ [] ∧ r.Path.data = "/thongtinmonhoc/".data ++ seg ∧
      vars = [("id", String.mk seg)]) ∧
    mux.Vars { r with Vars := vars } "ma_mh" = "" ∧
    (h = .GetSubject →
      (Router.ServeHTTP codec es now r w).2.calls
        = w.calls ++ [EsRequest.Get "thongtinmonhoc" ""]) ∧
    (h = .DeleteSubject →
      (Router.ServeHTTP codec es now r w).2.calls
        = w.calls ++ [EsRequest.Delete "thongtinmonhoc" "" "true"]) ∧
    (h = .UpdateSubject →
      ∀ R data, codec.Decode r.Body = .ok R → codec.Marshal R = .ok data →
      (Router.ServeHTTP codec es now r w).2.calls
        = w.calls ++ [EsRequest.Update "thongtinmonhoc" "" data "true"]) := by
  rcases match_routes r h vars hm with ⟨hc, _⟩ | ⟨_, seg, hseg, _, hpath, hvars⟩
  · exact absurd hc hh
  · have hv : mux.Vars { r with Vars := vars } "ma_mh" = "" := by
      subst hvars
      simp [mux.Vars, List.lookup]
    refine ⟨⟨seg, hseg, hpath, hvars⟩, hv, ?_, ?_, ?_⟩
    · intro hg
      subst hg
      simp only [Router.ServeHTTP, hm, Handler.serve, GetSubject, hv, Do]
      split
      · rfl
      · split
        · rfl
        · split <;> rfl
    · intro hd
      subst hd
      simp only [Router.ServeHTTP, hm, Handler.serve, DeleteSubject, hv, Do]
      split <;> rfl
    · intro hu R data hR hdata
      subst hu
      simp only [Router.ServeHTTP, hm, Handler.serve, UpdateSubject, hv, hR, hdata, Do]
      split <;> rfl

/-- C6 fails on the code. After a successful CreateSubject for a valid record R with non-empty
id on the provisioned store: GetSubject with its variable bound to R's id answers 200, but with
the encoding of the zero record (empty id, name and owner, credit count 0, zero `created_at`),
because it decodes the store's envelope and not its `_source` member; and through the route
table, `GET /thongtinmonhoc/CS101` after `POST` of the record CS101 answers 404, because the
handler asks the store for the empty identifier. -/
theorem C6_get_after_create_loses_record (tc : TimeCodec) (now : Time) (stamp zero : String)
    (R : ThongTinMonHoc) (hnow : tc.MarshalJSON now = .ok stamp)
    (hzero : tc.MarshalJSON 0 = .ok zero) (hid : R.MaMH ≠ "")
    (hcredits : -(2 : Int) ^ 63 ≤ R.SoTinChi ∧ R.SoTinChi < (2 : Int) ^ 63) :
    (CreateSubject (goJson tc) esStore now
        ⟨"POST", "/thongtinmonhoc", [Chunk.json (requestBody R)], []⟩ provisioned).1.StatusCode
      = 201 ∧
    (GetSubject (goJson tc) esStore
        ⟨"GET", "/thongtinmonhoc/" ++ R.MaMH, [], [("ma_mh", R.MaMH)]⟩
        (CreateSubject (goJson tc) esStore now
          ⟨"POST", "/thongtinmonhoc", [Chunk.json (requestBody R)], []⟩ provisioned).2).1
      = ⟨some 200, [Chunk.json (encodeSubject {} zero), Chunk.text "\n"]⟩ ∧
    (({} : ThongTinMonHoc).MaMH ≠ R.MaMH) ∧
    (Router.ServeHTTP (goJson tc) esStore now
        ⟨"POST", "/thongtinmonhoc", [Chunk.json (requestBody cs101)], []⟩
        provisioned).1.StatusCode = 201 ∧
    (Router.ServeHTTP (goJson tc) esStore now ⟨"GET", "/thongtinmonhoc/CS101", [], []⟩
        (Router.ServeHTTP (goJson tc) esStore now
          ⟨"POST", "/thongtinmonhoc", [Chunk.json (requestBody cs101)], []⟩
          provisioned).2).1.StatusCode = 404 := by
  have hc := create_provisioned tc now stamp R
    ⟨"POST", "/thongtinmonhoc", [Chunk.json (requestBody R)], []⟩ rfl hnow hid hcredits
  have hc1 := create_provisioned tc now stamp cs101
    ⟨"POST", "/thongtinmonhoc", [Chunk.json (requestBody cs101)], []⟩ rfl hnow (by decide)
    (by decide)
  refine ⟨?_, ?_, ?_, ?_, ?_⟩
  · rw [hc]; rfl
  · rw [hc]
    exact get_after_create tc zero R.MaMH _ _ _ rfl hzero
  · exact fun h => hid h.symm
  · simp only [Router.ServeHTTP, match_post, Handler.serve]
    rw [hc1]; rfl
  · simp only [Router.ServeHTTP, match_post, match_get_cs101, Handler.serve]
    rw [hc1]
    simp [GetSubject, Do, esStore, mux.Vars, List.lookup, answer, EsResponse.IsError, cs101,
      statusCode_error]

/-! ## The theorems at the worked scenario -/

/-- The request `POST /thongtinmonhoc` of the scenario on the provisioned store is answered 201
(C1 at a concrete input). -/
theorem C1_witness_created :
    (CreateSubject (goJson sampleTimes) esStore 1
        ⟨"POST", "/thongtinmonhoc", [Chunk.json (requestBody cs101)], []⟩
        provisioned).1.StatusCode = 201 :=
  ((((C1_CreateSubject_status (goJson sampleTimes) esStore 1
        ⟨"POST", "/thongtinmonhoc", [Chunk.json (requestBody cs101)], []⟩ provisioned).2.1
      cs101 (decode_requestBody sampleTimes cs101 [] (by decide))).2 _ rfl).2
    ⟨_, rfl, by decide⟩).1

/-- The index request of the scenario (C2 at a concrete input). -/
theorem C2_witness_index_request :
    (goJson sampleTimes).Decode [Chunk.json (requestBody cs101)] = .ok cs101 ∧
    (CreateSubject (goJson sampleTimes) esStore 1
        ⟨"POST", "/thongtinmonhoc", [Chunk.json (requestBody cs101)], []⟩ provisioned).2.calls
      = [EsRequest.Index "thongtinmonhoc" "CS101"
          [Chunk.json (encodeSubject { cs101 with CreatedAt := 1 }
            "0001-01-01T00:00:00.000000001Z")] "true"] :=
  ⟨decode_requestBody sampleTimes cs101 [] (by decide),
   (C2_CreateSubject_index_request (goJson sampleTimes) esStore 1
      ⟨"POST", "/thongtinmonhoc", [Chunk.json (requestBody cs101)], []⟩ provisioned cs101
      (decode_requestBody sampleTimes cs101 [] (by decide))).1 _ rfl⟩

/-- A body that is not JSON leaves the provisioned store alone (C3 at a concrete input). -/
theorem C3_witness_malformed :
    (goJson sampleTimes).Decode [Chunk.text "ma_mh=CS101"] = .error "invalid character" ∧
    ((CreateSubject (goJson sampleTimes) esStore 1
        ⟨"POST", "/thongtinmonhoc", [Chunk.text "ma_mh=CS101"], []⟩
        provisioned).1.StatusCode = 400 ∧
      (CreateSubject (goJson sampleTimes) esStore 1
        ⟨"POST", "/thongtinmonhoc", [Chunk.text "ma_mh=CS101"], []⟩
        provisioned).2 = provisioned) ∧
    ((UpdateSubject (goJson sampleTimes) esStore
        ⟨"POST", "/thongtinmonhoc", [Chunk.text "ma_mh=CS101"], []⟩
        provisioned).1.StatusCode = 400 ∧
      (UpdateSubject (goJson sampleTimes) esStore
        ⟨"POST", "/thongtinmonhoc", [Chunk.text "ma_mh=CS101"], []⟩
        provisioned).2 = provisioned) :=
  ⟨rfl, C3_malformed_body_no_store_call (goJson sampleTimes) esStore 1
    ⟨"POST", "/thongtinmonhoc", [Chunk.text "ma_mh=CS101"], []⟩ provisioned
    "invalid character" rfl⟩

/-- The request `GET /thongtinmonhoc/CS101` asks the store for the empty identifier (C4 at a
concrete input). -/
theorem C4_witness_get_cs101 :
    Router.Match ⟨"GET", "/thongtinmonhoc/CS101", [], []⟩ routes
      = .matched .GetSubject [("id", "CS101")] ∧
    (Router.ServeHTTP (goJson sampleTimes) esStore 1 ⟨"GET", "/thongtinmonhoc/CS101", [], []⟩
        provisioned).2.calls = [EsRequest.Get "thongtinmonhoc" ""] :=
  ⟨match_get_cs101 [] [],
   (C4_document_id_is_empty (goJson sampleTimes) esStore 1
      ⟨"GET", "/thongtinmonhoc/CS101", [], []⟩ provisioned .GetSubject [("id", "CS101")]
      (match_get_cs101 [] []) (by decide)).2.2.1 rfl⟩

/-- On a store that holds a document under an identifier, GetSubject with that identifier answers
200 (C5 at a concrete input). -/
theorem C5_witness_found :
    (GetSubject (goJson sampleTimes) esStore ⟨"GET", "/thongtinmonhoc/CS101", [],
        [("ma_mh", "CS101")]⟩
        ⟨{ indices := [("thongtinmonhoc", [("CS101", requestBody cs101)])] }, []⟩).1.StatusCode
      = 200 :=
  (((C5_GetSubject_status (goJson sampleTimes) esStore
        ⟨"GET", "/thongtinmonhoc/CS101", [], [("ma_mh", "CS101")]⟩
        ⟨{ indices := [("thongtinmonhoc", [("CS101", requestBody cs101)])] }, []⟩).2
      _ rfl (by decide)).2 {}
    (decode_envelope sampleTimes "thongtinmonhoc" "CS101" (requestBody cs101) [])).1

/-- The scenario end to end (C6 at a concrete input): the record is posted with status 201, and
the handler that is given its identifier answers with the zero record. -/
theorem C6_witness_cs101 :
    sampleTimes.MarshalJSON 1 = .ok "0001-01-01T00:00:00.000000001Z" ∧
    sampleTimes.MarshalJSON 0 = .ok "0001-01-01T00:00:00Z" ∧
    cs101.MaMH ≠ "" ∧
    (-(2 : Int) ^ 63 ≤ cs101.SoTinChi ∧ cs101.SoTinChi < (2 : Int) ^ 63) ∧
    (GetSubject (goJson sampleTimes) esStore
        ⟨"GET", "/thongtinmonhoc/" ++ cs101.MaMH, [], [("ma_mh", cs101.MaMH)]⟩
        (CreateSubject (goJson sampleTimes) esStore 1
          ⟨"POST", "/thongtinmonhoc", [Chunk.json (requestBody cs101)], []⟩ provisioned).2).1
      = ⟨some 200, [Chunk.json (encodeSubject {} "0001-01-01T00:00:00Z"), Chunk.text "\n"]⟩ ∧
    (Router.ServeHTTP (goJson sampleTimes) esStore 1 ⟨"GET", "/thongtinmonhoc/CS101", [], []⟩
        (Router.ServeHTTP (goJson sampleTimes) esStore 1
          ⟨"POST", "/thongtinmonhoc", [Chunk.json (requestBody cs101)], []⟩
          provisioned).2).1.StatusCode = 404 :=
  ⟨rfl, rfl, by decide, by decide,
   (C6_get_after_create_loses_record sampleTimes 1 "0001-01-01T00:00:00.000000001Z"
      "0001-01-01T00:00:00Z" cs101 rfl rfl (by decide) (by decide)).2.1,
   (C6_get_after_create_loses_record sampleTimes 1 "0001-01-01T00:00:00.000000001Z"
      "0001-01-01T00:00:00Z" cs101 rfl rfl (by decide) (by decide)).2.2.2.2⟩

/-- The store rejects the body UpdateSubject sends (a bare record, not a `doc` wrapper), so the
update of the scenario is answered 500 (C7 at a concrete input). -/
theorem C7_witness_store_rejects :
    (UpdateSubject (goJson sampleTimes) esStore
        ⟨"PUT", "/thongtinmonhoc/CS101", [Chunk.json (requestBody cs101)], [("id", "CS101")]⟩
        provisioned).1.StatusCode = 500 :=
  ((((C7_UpdateSubject_status (goJson sampleTimes) esStore
        ⟨"PUT", "/thongtinmonhoc/CS101", [Chunk.json (requestBody cs101)], [("id", "CS101")]⟩
        provisioned).2
      cs101 (decode_requestBody sampleTimes cs101 [] (by decide))).2 _ rfl).1
    (Or.inr ⟨_, rfl, by decide⟩))

/-- The update request of the scenario carries the record with the zero timestamp (C8 at a
concrete input). -/
theorem C8_witness_zero_timestamp :
    (goJson sampleTimes).Decode [Chunk.json (requestBody cs101)] = .ok cs101 ∧
    (UpdateSubject (goJson sampleTimes) esStore
        ⟨"PUT", "/thongtinmonhoc/CS101", [Chunk.json (requestBody cs101)], [("id", "CS101")]⟩
        provisioned).2.calls
      = [EsRequest.Update "thongtinmonhoc" ""
          [Chunk.json (encodeSubject cs101 "0001-01-01T00:00:00Z")] "true"] ∧
    cs101.CreatedAt = 0 :=
  ⟨decode_requestBody sampleTimes cs101 [] (by decide),
   (C8_UpdateSubject_body_verbatim (goJson sampleTimes) esStore
      ⟨"PUT", "/thongtinmonhoc/CS101", [Chunk.json (requestBody cs101)], [("id", "CS101")]⟩
      provisioned cs101 (decode_requestBody sampleTimes cs101 [] (by decide))).1 _ rfl,
   (C8_UpdateSubject_body_verbatim (goJson sampleTimes) esStore
      ⟨"PUT", "/thongtinmonhoc/CS101", [Chunk.json (requestBody cs101)], [("id", "CS101")]⟩
      provisioned cs101 (decode_requestBody sampleTimes cs101 [] (by decide))).2.2
      sampleTimes _ [] rfl rfl (by decide)⟩

/-- Deleting a document that the store holds is answered 200 (C9 at a concrete input). -/
theorem C9_witness_deleted :
    (DeleteSubject esStore ⟨"DELETE", "/thongtinmonhoc/CS101", [], [("ma_mh", "CS101")]⟩
        ⟨{ indices := [("thongtinmonhoc", [("CS101", requestBody cs101)])] }, []⟩).1.StatusCode
      = 200 :=
  ((C9_DeleteSubject esStore ⟨"DELETE", "/thongtinmonhoc/CS101", [], [("ma_mh", "CS101")]⟩
      ⟨{ indices := [("thongtinmonhoc", [("CS101", requestBody cs101)])] }, []⟩).2.2.1
    ⟨_, rfl, by decide⟩).1

/-- Startup on an empty store completes, logs nothing, and leaves the index in place: the
delete-index call is answered 404, which is not inspected (C10, amended, at a concrete input). -/
theorem C10_witness_first_start :
    (init (Except.ok esStore) ⟨{}, []⟩).aborts = false ∧
    (init (Except.ok esStore) ⟨{}, []⟩).out = [] :=
  ((C10_init_outcomes (Except.ok esStore) ⟨{}, []⟩).2 esStore rfl).2 _ _ rfl rfl

end ElasticsearchAPI
